import Mathlib

/-!
IoT green-spaces backend: the in-memory ingestion / registry / fan-out pipeline.

A shallow embedding of `backend/server.js`.  The three module-level variables
(`sensorDataStore`, `sensorsStore`, `clients`) become the fields of `Server`;
each Express handler becomes a function from the state before the request to
the state after it together with the reply.  Everything written to an SSE
response object is recorded in `Server.wire`.

A finite number is the rational it denotes; `NaN` and the two infinities are
values of their own.  Addition, multiplication and `parseFloat` round their
exact result to binary64 (to nearest, ties to even, overflow to infinity).
Negative zero is not told apart from zero.
-/

namespace GreenSpaces

/-! ## JavaScript values -/

/-- A JavaScript number. -/
inductive JSNum where
  | nan
  | fin (q : ℚ)
  | inf (negative : Bool)
deriving DecidableEq

/-- Rounding to the nearest integer, a tie going to the even neighbour. -/
def roundHalfEven (x : ℚ) : ℤ :=
  let f := ⌊x⌋
  if x - f < 1 / 2 then f
  else if 1 / 2 < x - f then f + 1
  else if f % 2 = 0 then f else f + 1

/-- The binary64 number nearest to a rational, ties to even: the rational is
rounded to a multiple of `2 ^ (e - 52)`, where `e` is its binary exponent, not
below -1022 (the subnormal range).  From the midpoint between the largest
finite number and `2 ^ 1024` on, the result is an infinity. -/
def binary64 (q : ℚ) : JSNum :=
  if q = 0 then .fin 0
  else if (2 : ℚ) ^ (1024 : ℤ) - 2 ^ (970 : ℤ) ≤ |q| then .inf (decide (q < 0))
  else
    let e : ℤ := max (Int.log 2 |q|) (-1022)
    let u : ℚ := 2 ^ (e - 52)
    let n : ℤ := roundHalfEven (|q| / u)
    .fin (if q < 0 then -(n * u) else n * u)

/-- The operator `+` on numbers. -/
def JSNum.add : JSNum → JSNum → JSNum
  | .fin a, .fin b => binary64 (a + b)
  | .nan, _ => .nan
  | _, .nan => .nan
  | .inf s, .inf t => if s = t then .inf s else .nan
  | .inf s, .fin _ => .inf s
  | .fin _, .inf s => .inf s

/-- The operator `*` on numbers. -/
def JSNum.mul : JSNum → JSNum → JSNum
  | .fin a, .fin b => binary64 (a * b)
  | .nan, _ => .nan
  | _, .nan => .nan
  | .inf s, .inf t => .inf (s != t)
  | .inf s, .fin b => if b = 0 then .nan else .inf (s != decide (b < 0))
  | .fin a, .inf s => if a = 0 then .nan else .inf (s != decide (a < 0))

/-- A value as it can appear in a parsed JSON body, or `undefined` for a
property that is absent. -/
inductive JSVal where
  | undefined
  | null
  | bool (b : Bool)
  | num (n : JSNum)
  | str (s : String)
  | arr (items : List JSVal)
  | obj (fields : List (String × JSVal))

/-- The exceptions the handlers can meet: a `TypeError` raised by the
language, or whatever a failing `res.write` throws. -/
inductive JSError where
  | typeError
  | writeError
deriving DecidableEq

/-- The operation `Number::toString`: on a finite number it is supplied by the host (`hostNum`);
`NaN` and the infinities print as the language fixes them. -/
def JSNum.toStr (hostNum : ℚ → String) : JSNum → String
  | .nan => "NaN"
  | .fin q => hostNum q
  | .inf false => "Infinity"
  | .inf true => "-Infinity"

mutual
/-- The abstract operation `ToString`.  A plain object answers
`"[object Object]"` through `Object.prototype.toString`, unless it carries an
own property `toString`: a JSON value is never callable, so `ToPrimitive` finds
no usable method and throws.  An array is converted by `join`. -/
def JSVal.toStr (hostNum : ℚ → String) : JSVal → Except JSError String
  | .undefined => .ok "undefined"
  | .null => .ok "null"
  | .bool true => .ok "true"
  | .bool false => .ok "false"
  | .num n => .ok (n.toStr hostNum)
  | .str s => .ok s
  | .arr items => JSVal.join hostNum items
  | .obj fields =>
      if (fields.map Prod.fst).contains "toString" then .error .typeError
      else .ok "[object Object]"
/-- The method `Array.prototype.join` with the separator `","`: `undefined` and `null`
elements contribute the empty string. -/
def JSVal.join (hostNum : ℚ → String) : List JSVal → Except JSError String
  | [] => .ok ""
  | [x] => JSVal.elemStr hostNum x
  | x :: y :: rest =>
      match JSVal.elemStr hostNum x with
      | .error e => .error e
      | .ok a =>
          match JSVal.join hostNum (y :: rest) with
          | .error e => .error e
          | .ok b => .ok (a ++ "," ++ b)
/-- One element of a `join`. -/
def JSVal.elemStr (hostNum : ℚ → String) : JSVal → Except JSError String
  | .undefined => .ok ""
  | .null => .ok ""
  | .bool true => .ok "true"
  | .bool false => .ok "false"
  | .num n => .ok (n.toStr hostNum)
  | .str s => .ok s
  | .arr items => JSVal.join hostNum items
  | .obj fields =>
      if (fields.map Prod.fst).contains "toString" then .error .typeError
      else .ok "[object Object]"
end

/-- The comparison `SameValueZero`, used for the keys of a `Map`.  Primitives compare by value
(`NaN` equals `NaN`).  Arrays and objects compare by identity, and every request
body is parsed into new objects, so an array or object met in a request is never
the same as one stored earlier. -/
def sameValueZero : JSVal → JSVal → Bool
  | .undefined, .undefined => true
  | .null, .null => true
  | .bool a, .bool b => a == b
  | .num a, .num b => decide (a = b)
  | .str a, .str b => a == b
  | _, _ => false

/-- Strict equality `v === s` against a string. -/
def strictEqStr : JSVal → String → Bool
  | .str a, s => a == s
  | _, _ => false

/-! ## `parseFloat` and `parseInt` -/

/-- The characters `parseFloat` and `parseInt` skip at the start of their input
(`WhiteSpace` and `LineTerminator`), by code point. -/
def isStrWhiteSpace (c : Char) : Bool :=
  [9, 10, 11, 12, 13, 32, 160, 5760, 8192, 8193, 8194, 8195, 8196, 8197, 8198,
    8199, 8200, 8201, 8202, 8232, 8233, 8239, 8287, 12288, 65279].contains c.toNat

/-- The value of a digit character in the given radix (10 or 16). -/
def digitValue (radix : Nat) (c : Char) : Option Nat :=
  let n := c.toNat
  let v : Option Nat :=
    if 48 ≤ n ∧ n ≤ 57 then some (n - 48)
    else if 97 ≤ n ∧ n ≤ 102 then some (n - 87)
    else if 65 ≤ n ∧ n ≤ 70 then some (n - 55)
    else none
  match v with
  | some d => if d < radix then some d else none
  | none => none

/-- Reads the longest run of digits at the start of the input: the digits read
and the rest of the input. -/
def takeDigits (radix : Nat) : List Char → List Nat × List Char
  | [] => ([], [])
  | c :: cs =>
      match digitValue radix c with
      | some d => let r := takeDigits radix cs; (d :: r.1, r.2)
      | none => ([], c :: cs)

/-- The number written by a list of digits, most significant first. -/
def digitsValue (radix : Nat) (ds : List Nat) : Nat :=
  ds.foldl (fun acc d => acc * radix + d) 0

/-- Splits an optional sign off the input: whether it is `-`, and the rest. -/
def takeSign : List Char → Bool × List Char
  | '-' :: cs => (true, cs)
  | '+' :: cs => (false, cs)
  | cs => (false, cs)

/-- The exponent part of a decimal literal, `e` or `E`, an optional sign and at
least one digit; `0` when the input does not start with one. -/
def exponentPart (cs : List Char) : Int :=
  match cs with
  | [] => 0
  | c :: rest =>
      if c = 'e' ∨ c = 'E' then
        let s := takeSign rest
        let ds := (takeDigits 10 s.2).1
        if ds = [] then 0
        else if s.1 then -((digitsValue 10 ds : Nat) : Int) else ((digitsValue 10 ds : Nat) : Int)
      else 0

/-- The function `parseFloat` on a string: skip leading white space, then take the longest
prefix that is a `StrDecimalLiteral`, and round the decimal it writes to
binary64; `NaN` when there is none. -/
def parseFloatStr (input : String) : JSNum :=
  let s := takeSign (input.data.dropWhile isStrWhiteSpace)
  if "Infinity".data.isPrefixOf s.2 then .inf s.1
  else
    let ip := takeDigits 10 s.2
    let fp : List Nat × List Char :=
      match ip.2 with
      | '.' :: rest => takeDigits 10 rest
      | rest => ([], rest)
    if ip.1 = [] ∧ fp.1 = [] then .nan
    else
      let mant : ℚ := (digitsValue 10 (ip.1 ++ fp.1) : Nat)
      let e : Int := exponentPart fp.2 - (fp.1.length : Int)
      binary64 ((if s.1 then -mant else mant) * (10 : ℚ) ^ e)

/-- The call `parseFloat(v)`: `ToString`, then `parseFloatStr`. -/
def parseFloat (hostNum : ℚ → String) (v : JSVal) : Except JSError JSNum :=
  match v.toStr hostNum with
  | .error e => .error e
  | .ok s => .ok (parseFloatStr s)

/-- The function `parseInt` on a string with no radix argument: skip leading white space,
read a sign, switch to radix 16 after `0x` or `0X`, and take the longest run of
digits; `none` is `NaN`. -/
def parseIntStr (input : String) : Option Int :=
  let s := takeSign (input.data.dropWhile isStrWhiteSpace)
  let body : Nat × List Char :=
    match s.2 with
    | '0' :: 'x' :: rest => (16, rest)
    | '0' :: 'X' :: rest => (16, rest)
    | rest => (10, rest)
  let ds := (takeDigits body.1 body.2).1
  if ds = [] then none
  else
    let v : Int := (digitsValue body.1 ds : Nat)
    some (if s.1 then -v else v)

/-! ## Data model -/

/-- The object `sensorData` built on lines 29-38. -/
structure Reading where
  _id : String
  sensorId : JSVal
  temperature : JSNum
  humidity : JSNum
  soilMoisture : JSNum
  airHumidity : JSNum
  battery : JSNum
  timestamp : Nat

/-- The object stored in `sensorsStore` on lines 49-57: six fields of its own,
then the spread of `sensorData` (no key of the spread collides with them). -/
structure SensorState where
  id : JSVal
  name : String
  active : Bool
  lastUpdate : Nat
  lat : ℚ
  lng : ℚ
  _id : String
  sensorId : JSVal
  temperature : JSNum
  humidity : JSNum
  soilMoisture : JSNum
  airHumidity : JSNum
  battery : JSNum
  timestamp : Nat

/-- An entry of `clients`: `id` is the `Date.now()` read at attach, `res` the
identity of the response object. -/
structure Client where
  id : Nat
  res : Nat
deriving DecidableEq

/-- The object serialised into one SSE frame (`type` and `data`). -/
inductive Event where
  | initial (data : List SensorState)
  | update (data : Reading)

/-- One call of `res.write`: the response written to, the event, and whether
the call returned (`true`) or threw (`false`). -/
structure WriteRec where
  res : Nat
  event : Event
  delivered : Bool

/-- A JavaScript `Map` from sensor ids to sensor states, in insertion order. -/
abbrev SensorMap := List (JSVal × SensorState)

/-- The module state of `server.js`, and the trace of SSE writes. -/
structure Server where
  sensorDataStore : List Reading
  sensorsStore : SensorMap
  clients : List Client
  wire : List WriteRec

/-- The state when the module is loaded (lines 15, 16 and 75). -/
def Server.init : Server :=
  { sensorDataStore := [], sensorsStore := [], clients := [], wire := [] }

/-- Line 17. -/
def MAX_STORED_DATA : Nat := 1000

/-- The three properties line 24 reads from `req.body`; `undefined` stands for
a property that is absent.  `others` holds every other property of the body. -/
structure Payload where
  sensorId : JSVal
  temperature : JSVal
  humidity : JSVal
  others : List (String × JSVal)

/-- What the host supplies while one ingestion request is handled: number
formatting, the three readings of the clock (lines 30, 37 and 53, in
milliseconds), the values of the three results of `Math.random()` (lines 34, 35
and 36), and for each response object whether `res.write` on it throws. -/
structure Host where
  numberToString : ℚ → String
  clockId : Nat
  clockTimestamp : Nat
  clockLastUpdate : Nat
  randomSoil : ℚ
  randomAir : ℚ
  randomBattery : ℚ
  writeThrows : Nat → Bool

/-- A reply: `res.status(200).json(body)` or `res.status(500).json(...)`. -/
inductive Reply (α : Type) where
  | status200 (body : α)
  | status500

/-! ## `Map` and `Array` operations -/

/-- The method `Map.prototype.set`: an existing key keeps its place and gets the new
value, a new key is added at the end. -/
def mapSet : SensorMap → JSVal → SensorState → SensorMap
  | [], k, v => [(k, v)]
  | (k', v') :: rest, k, v =>
      if sameValueZero k' k then (k', v) :: rest else (k', v') :: mapSet rest k v

/-- The listing `Array.from(map.values())`, in insertion order. -/
def mapValues (m : SensorMap) : List SensorState := m.map Prod.snd

/-- The method `Array.prototype.slice(start)` for an integer `start`: a negative `start`
counts from the end, and the start index is clamped to `[0, length]`. -/
def jsSlice {α : Type} (start : Int) (l : List α) : List α :=
  if start < 0 then l.drop (l.length - start.natAbs) else l.drop start.toNat

/-- Lines 41-46 with the bound as a parameter: `push`, then one `shift` when
the length exceeds the bound. -/
def pushBounded {α : Type} (cap : Nat) (store : List α) (x : α) : List α :=
  let pushed := store ++ [x]
  if pushed.length > cap then pushed.tail else pushed

/-! ## Server-sent events -/

/-- A `res.write(...)` of one event to the response `res`. -/
def resWrite (throws : Nat → Bool) (s : Server) (res : Nat) (ev : Event) :
    Except JSError Unit × Server :=
  if throws res then
    (.error .writeError, { s with wire := s.wire ++ [⟨res, ev, false⟩] })
  else
    (.ok (), { s with wire := s.wire ++ [⟨res, ev, true⟩] })

/-- The callback of lines 103-109: the write, inside `try`/`catch`. -/
def broadcastOne (throws : Nat → Bool) (data : Reading) (client : Client) (s : Server) :
    Except JSError Unit × Server :=
  match resWrite throws s client.res (.update data) with
  | (.error _, s') => (.ok (), s')
  | (.ok u, s') => (.ok u, s')

/-- The method `Array.prototype.forEach` over a list of clients: an exception leaving the
callback ends the loop. -/
def forEachClient (f : Client → Server → Except JSError Unit × Server) :
    List Client → Server → Except JSError Unit × Server
  | [], s => (.ok (), s)
  | c :: cs, s =>
      match f c s with
      | (.error e, s') => (.error e, s')
      | (.ok _, s') => forEachClient f cs s'

/-- Lines 102-110. -/
def broadcastToClients (throws : Nat → Bool) (s : Server) (data : Reading) :
    Except JSError Unit × Server :=
  forEachClient (broadcastOne throws data) s.clients s

/-- Lines 77-92, `GET /api/sensors/stream`, up to the registration of the close
handler: `res` is the new response object, `now` the value of `Date.now()`.
When the write of line 91 throws, line 94 is not reached. -/
def getSensorsStream (s : Server) (res : Nat) (now : Nat) (throws : Nat → Bool) :
    Except JSError Unit × Server :=
  let clientId := now
  let s1 := { s with clients := s.clients ++ [{ id := clientId, res := res }] }
  resWrite throws s1 res (.initial (mapValues s1.sensorsStore))

/-- Lines 94-98, the close handler registered by an attach whose `Date.now()`
was `clientId`. -/
def onClose (s : Server) (clientId : Nat) : Server :=
  match s.clients.findIdx? (fun c => c.id == clientId) with
  | some index => { s with clients := s.clients.eraseIdx index }
  | none => s

/-! ## Ingestion -/

/-- Lines 22-72, `POST /api/sensors/data`.  `body` is `req.body`, `none` when
it is `undefined`.  Every exit through `catch` replies 500 and keeps what was
assigned before the exception.  The steps, in order: the destructuring of
line 24, which throws on `undefined`; the template literal of line 26, which
converts the three properties to strings; `sensorData` (lines 29-38); the
`push` and `shift` of lines 41-46; the `set` of lines 49-57, whose `name` is
another template literal; the broadcast of line 60; the reply of line 62. -/
def postSensorsData (s : Server) (body : Option Payload) (h : Host) :
    Server × Reply Reading :=
  -- line 24
  match body with
  | none => (s, .status500)
  | some p =>
  -- line 26
  match p.sensorId.toStr h.numberToString, p.temperature.toStr h.numberToString,
    p.humidity.toStr h.numberToString with
  | .ok _, .ok _, .ok _ =>
    -- lines 29-38
    match parseFloat h.numberToString p.temperature with
    | .error _ => (s, .status500)
    | .ok temperature =>
    match parseFloat h.numberToString p.humidity with
    | .error _ => (s, .status500)
    | .ok humidity =>
    let sensorData : Reading :=
      { _id := toString h.clockId
        sensorId := p.sensorId
        temperature := temperature
        humidity := humidity
        soilMoisture := (JSNum.fin 30).add ((JSNum.fin h.randomSoil).mul (.fin 50))
        airHumidity := (JSNum.fin 40).add ((JSNum.fin h.randomAir).mul (.fin 40))
        battery := (JSNum.fin 60).add ((JSNum.fin h.randomBattery).mul (.fin 40))
        timestamp := h.clockTimestamp }
    -- lines 41-46
    let s1 := { s with
      sensorDataStore := pushBounded MAX_STORED_DATA s.sensorDataStore sensorData }
    -- lines 49-57
    match p.sensorId.toStr h.numberToString with
    | .error _ => (s1, .status500)
    | .ok shown =>
    let s2 := { s1 with
      sensorsStore := mapSet s1.sensorsStore p.sensorId
        { id := p.sensorId
          name := "Capteur " ++ shown
          active := true
          lastUpdate := h.clockLastUpdate
          lat := 346807 / 10000
          lng := -(19102 / 10000)
          _id := sensorData._id
          sensorId := sensorData.sensorId
          temperature := sensorData.temperature
          humidity := sensorData.humidity
          soilMoisture := sensorData.soilMoisture
          airHumidity := sensorData.airHumidity
          battery := sensorData.battery
          timestamp := sensorData.timestamp } }
    -- lines 60-66
    match broadcastToClients h.writeThrows s2 sensorData with
    | (.error _, s3) => (s3, .status500)
    | (.ok _, s3) => (s3, .status200 sensorData)
  | _, _, _ => (s, .status500)

/-! ## Queries -/

/-- Lines 113-121, `GET /api/sensors/latest`.  `limit` is `req.query.limit`,
which the handler does not read. -/
def getSensorsLatest (s : Server) (_limit : Option String) :
    Server × Reply (List SensorState) :=
  (s, .status200 (jsSlice (-10) (mapValues s.sensorsStore)))

/-- The start index `-parseInt(limit)` of line 131, with `limit` bound by
line 127: an absent or empty `req.query.limit` is falsy and gives 100, and
`slice` treats `NaN` as 0. -/
def historyStart (limit : Option String) : Int :=
  match limit with
  | none => -100
  | some text =>
      if text = "" then -100
      else
        match parseIntStr text with
        | some n => -n
        | none => 0

/-- Lines 124-137, `GET /api/sensors/:sensorId/data`.  `sensorId` is
`req.params.sensorId`, `limit` is `req.query.limit` when the query string gives
it once. -/
def getSensorData (s : Server) (sensorId : String) (limit : Option String) :
    Server × Reply (List Reading) :=
  (s, .status200 (jsSlice (historyStart limit)
    (s.sensorDataStore.filter (fun d => strictEqStr d.sensorId sensorId))))

/-- Lines 140-147, `GET /api/sensors`. -/
def getSensors (s : Server) : Server × Reply (List SensorState) :=
  (s, .status200 (mapValues s.sensorsStore))

/-- One element of the reply of `GET /api/sensors/stats/global`
(lines 152-158). -/
structure SensorStats where
  _id : JSVal
  temperature : JSNum
  humidity : JSNum
  soilMoisture : JSNum
  airHumidity : JSNum

/-- Lines 150-164, `GET /api/sensors/stats/global`. -/
def getSensorsStatsGlobal (s : Server) : Server × Reply (List SensorStats) :=
  (s, .status200 ((mapValues s.sensorsStore).map (fun sensor =>
    { _id := sensor.sensorId
      temperature := sensor.temperature
      humidity := sensor.humidity
      soilMoisture := sensor.soilMoisture
      airHumidity := sensor.airHumidity })))

/-- The body of the reply of `GET /api/health` (lines 168-174). -/
structure Health where
  status : String
  mode : String
  clients : Nat
  dataPoints : Nat
  activeSensors : Nat

/-- Lines 167-175, `GET /api/health`. -/
def getHealth (s : Server) : Server × Reply Health :=
  (s, .status200
    { status := "API active ✅"
      mode := "Streaming en mémoire (sans MongoDB)"
      clients := s.clients.length
      dataPoints := s.sensorDataStore.length
      activeSensors := s.sensorsStore.length })

/-! ## Runs -/

/-- One event of the server's single processing timeline: an ingestion
request, an attach answered by the response `res`, or the `close` event of the
request answered by `res`, whose handler closed over `clientId`. -/
inductive Step where
  | post (body : Option Payload) (h : Host)
  | stream (res : Nat) (now : Nat) (throws : Nat → Bool)
  | close (res : Nat) (clientId : Nat)

/-- The state after one event. -/
def step (s : Server) : Step → Server
  | .post body h => (postSensorsData s body h).1
  | .stream res now throws => (getSensorsStream s res now throws).2
  | .close _ clientId => onClose s clientId

/-- The state after a sequence of events. -/
def run (s : Server) (steps : List Step) : Server := steps.foldl step s

/-- The events of the writes to the response `res` that returned, in order. -/
def deliveredTo (res : Nat) (ws : List WriteRec) : List Event :=
  (ws.filter (fun w => w.res == res && w.delivered)).map WriteRec.event

/-- The events delivered to the response `res` so far, in order. -/
def received (s : Server) (res : Nat) : List Event := deliveredTo res s.wire

/-- The number of calls of `res.write` made on the response `res` so far. -/
def attempts (s : Server) (res : Nat) : Nat := s.wire.countP (fun w => w.res == res)

/-- The `update` payloads among a list of events. -/
def updatesOf : List Event → List Reading
  | [] => []
  | .update r :: rest => r :: updatesOf rest
  | .initial _ :: rest => updatesOf rest

/-- The reading an ingestion request yields when it is accepted: the body of
the 200 reply, `none` when the reply is 500. -/
def accepted (body : Option Payload) (h : Host) : Option Reading :=
  match (postSensorsData Server.init body h).2 with
  | .status200 r => some r
  | .status500 => none

/-- The readings ingested during a sequence of events, in arrival order. -/
def ingested : List Step → List Reading
  | [] => []
  | .post body h :: rest =>
      match accepted body h with
      | some r => r :: ingested rest
      | none => ingested rest
  | _ :: rest => ingested rest

/-- The reading fields of a registry entry. -/
def SensorState.reading (e : SensorState) : Reading :=
  { _id := e._id
    sensorId := e.sensorId
    temperature := e.temperature
    humidity := e.humidity
    soilMoisture := e.soilMoisture
    airHumidity := e.airHumidity
    battery := e.battery
    timestamp := e.timestamp }

/-- The write records one broadcast of `data` adds for a list of clients. -/
def broadcastWrites (throws : Nat → Bool) (data : Reading) (cs : List Client) : List WriteRec :=
  cs.map (fun c => { res := c.res, event := .update data, delivered := !throws c.res })

/-- The last `cap` elements of a list. -/
def lastN {α : Type} (cap : Nat) (l : List α) : List α := l.drop (l.length - cap)

/-- The registry entries stored under the string key `sid`. -/
def entriesFor (sid : String) (m : SensorMap) : List SensorState :=
  (m.filter (fun kv => strictEqStr kv.1 sid)).map Prod.snd

/-- Scanning readings in arrival order, the latest one whose `sensorId` is the
string `sid`; `start` when there is none. -/
def lastForFrom (start : Option Reading) (sid : String) (rs : List Reading) : Option Reading :=
  rs.foldl (fun acc r => if strictEqStr r.sensorId sid then some r else acc) start

/-- The most recent of the readings `rs` (in arrival order) whose `sensorId` is
the string `sid`. -/
def lastFor (sid : String) (rs : List Reading) : Option Reading :=
  (rs.filter (fun r => strictEqStr r.sensorId sid)).getLast?

/-- Every registry entry is stored under its own `sensorId`. -/
def KeyedBySensorId (m : SensorMap) : Prop := ∀ kv ∈ m, kv.2.sensorId = kv.1

/-- The body of a reply, when it is a 200. -/
def Reply.body {α : Type} : Reply α → Option α
  | .status200 b => some b
  | .status500 => none

/-! ## Sample inputs -/

/-- Whether `ToString` returns on a value, rather than throwing. -/
def convertible (hostNum : ℚ → String) (v : JSVal) : Bool :=
  match v.toStr hostNum with
  | .ok _ => true
  | .error _ => false

/-- The body `{}`: the three properties are absent. -/
def emptyPayload : Payload :=
  { sensorId := .undefined, temperature := .undefined, humidity := .undefined, others := [] }


/-- A host on which no write throws: the clock reads `now` three times, the
random source gives 1/2, 1/4 and 3/4.  The sample payloads hold strings only,
so the number formatting is not consulted. -/
def quietHost (now : Nat) : Host :=
  { numberToString := fun _ => ""
    clockId := now
    clockTimestamp := now
    clockLastUpdate := now
    randomSoil := 1 / 2
    randomAir := 1 / 4
    randomBattery := 3 / 4
    writeThrows := fun _ => false }

/-- The body `{sensorId, temperature, humidity}` with three string values. -/
def samplePayload (sensorId temperature humidity : String) : Payload :=
  { sensorId := .str sensorId, temperature := .str temperature, humidity := .str humidity,
    others := [] }

/-- A reading of sensor `S1`. -/
def sampleReading : Reading :=
  { _id := "1700000000000"
    sensorId := .str "S1"
    temperature := .fin 21
    humidity := .fin 55
    soilMoisture := .fin 55
    airHumidity := .fin 50
    battery := .fin 90
    timestamp := 1700000000000 }

/-- A server with three attached observers and nothing stored. -/
def sampleServer : Server :=
  { sensorDataStore := []
    sensorsStore := []
    clients := [{ id := 10, res := 0 }, { id := 11, res := 1 }, { id := 12, res := 2 }]
    wire := [] }

/-- Two observers attach while `Date.now()` is 5, so both entries of `clients`
carry the id 5; the request of the second (response 1) then closes, and two
readings are ingested. -/
def closeThenIngest : List Step :=
  [.stream 0 5 (fun _ => false), .stream 1 5 (fun _ => false), .close 1 5,
   .post (some (samplePayload "S1" "21.5" "55")) (quietHost 6),
   .post (some (samplePayload "S1" "22" "54")) (quietHost 7)]

/-- Two observers attach while `Date.now()` is `first` and `second`; a reading
is ingested, the request answered by the response `closing` closes (its handler
closed over `clientId`), and a second reading is ingested. -/
def ingestCloseIngest (first second closing clientId : Nat) : List Step :=
  [.stream 0 first (fun _ => false), .stream 1 second (fun _ => false),
   .post (some (samplePayload "S1" "21.5" "55")) (quietHost 6),
   .close closing clientId,
   .post (some (samplePayload "S1" "22" "54")) (quietHost 7)]

/-- Three readings of sensor `S1` ingested at clock values 6, 7 and 8, and one
of sensor `S2` at 9. -/
def fourIngestions : List Step :=
  [.post (some (samplePayload "S1" "21.5" "55")) (quietHost 6),
   .post (some (samplePayload "S1" "22" "54")) (quietHost 7),
   .post (some (samplePayload "S1" "22.5" "53")) (quietHost 8),
   .post (some (samplePayload "S2" "19" "60")) (quietHost 9)]

/-- Sensors `S0` to `S10` ingested once each at clock values 100 to 110, then
`S0` ingested again at 200. -/
def elevenSensors : List Step :=
  (List.range 11).map
      (fun i =>
        Step.post (some (samplePayload ("S" ++ toString i) "20" "50")) (quietHost (100 + i)))
    ++ [.post (some (samplePayload "S0" "25" "50")) (quietHost 200)]

/-- Whether a number is finite and lies in the closed interval from `lo` to
`hi`. -/
def JSNum.within (lo hi : ℚ) : JSNum → Bool
  | .fin q => decide (lo ≤ q) && decide (q ≤ hi)
  | _ => false

/-- A host whose clock advances from 6 to 7 between the read of line 37 and
the read of line 53. -/
def tickingHost : Host :=
  { numberToString := fun _ => ""
    clockId := 6
    clockTimestamp := 6
    clockLastUpdate := 7
    randomSoil := 1 / 2
    randomAir := 1 / 4
    randomBattery := 3 / 4
    writeThrows := fun _ => false }

/-- The same payload ingested 101 times. -/
def manyIngestions : List Step :=
  List.replicate 101 (.post (some (samplePayload "S1" "20" "50")) (quietHost 6))

/-- Readings of two sensors ingested within the same millisecond. -/
def sameMillisecond : List Step :=
  [.post (some (samplePayload "S1" "21.5" "55")) (quietHost 6),
   .post (some (samplePayload "S2" "19" "60")) (quietHost 6)]

/-- Two observers attach, answered by the responses 0 and 1, while `Date.now()`
is `first` and then `second`. -/
def twoAttaches (first second : Nat) : List Step :=
  [.stream 0 first (fun _ => false), .stream 1 second (fun _ => false)]

/-- A host whose second random result is the largest one below 1. -/
def edgeHost : Host :=
  { numberToString := fun _ => ""
    clockId := 6
    clockTimestamp := 6
    clockLastUpdate := 6
    randomSoil := 0
    randomAir := 1 - 2 ^ (-53 : ℤ)
    randomBattery := 0
    writeThrows := fun _ => false }

/-- The sample payload of sensor `S1` with further properties, which the
handler does not read. -/
def crowdedPayload : Payload :=
  { sensorId := .str "S1", temperature := .str "21.5", humidity := .str "55",
    others := [("active", .bool false), ("lat", .num (.fin 0)), ("lng", .num (.fin 0)),
      ("name", .str "x"), ("_id", .str "1"), ("timestamp", .num (.fin 0))] }

/-- The reading the handler builds from the sample payload of sensor `S1` on
the quiet host at clock value 6. -/
def sampleAccepted : Reading :=
  { _id := "6"
    sensorId := .str "S1"
    temperature := parseFloatStr "21.5"
    humidity := parseFloatStr "55"
    soilMoisture := (JSNum.fin 30).add ((JSNum.fin (1 / 2)).mul (.fin 50))
    airHumidity := (JSNum.fin 40).add ((JSNum.fin (1 / 4)).mul (.fin 40))
    battery := (JSNum.fin 60).add ((JSNum.fin (3 / 4)).mul (.fin 40))
    timestamp := 6 }

/-! ## Basic facts -/

theorem forEachClient_broadcastOne (throws : Nat → Bool) (data : Reading) (cs : List Client)
    (s : Server) :
    forEachClient (broadcastOne throws data) cs s
      = (.ok (), { s with wire := s.wire ++ broadcastWrites throws data cs }) := by
  induction cs generalizing s with
  | nil => simp [forEachClient, broadcastWrites]
  | cons c cs ih =>
      unfold forEachClient
      by_cases hc : throws c.res = true
      · simp [broadcastOne, resWrite, hc, ih, broadcastWrites]
      · simp [broadcastOne, resWrite, hc, ih, broadcastWrites]

theorem broadcastToClients_eq (throws : Nat → Bool) (s : Server) (data : Reading) :
    broadcastToClients throws s data
      = (.ok (), { s with wire := s.wire ++ broadcastWrites throws data s.clients }) := by
  unfold broadcastToClients
  exact forEachClient_broadcastOne throws data s.clients s

theorem post_rejected (s : Server) (body : Option Payload) (h : Host)
    (hr : accepted body h = none) : postSensorsData s body h = (s, .status500) := by
  unfold accepted at hr
  unfold postSensorsData at hr ⊢
  cases body with
  | none => rfl
  | some p =>
      simp only [parseFloat, broadcastToClients_eq] at hr ⊢
      cases h1 : p.sensorId.toStr h.numberToString <;>
      cases h2 : p.temperature.toStr h.numberToString <;>
      cases h3 : p.humidity.toStr h.numberToString <;>
      simp_all

theorem post_accepted (s : Server) (body : Option Payload) (h : Host) (r : Reading)
    (hr : accepted body h = some r) :
    ∃ e : SensorState, e.reading = r ∧ e.id = r.sensorId ∧ e.active = true ∧
      e.lastUpdate = h.clockLastUpdate ∧ e.lat = 346807 / 10000 ∧ e.lng = -(19102 / 10000) ∧
      postSensorsData s body h =
        ({ sensorDataStore := pushBounded MAX_STORED_DATA s.sensorDataStore r
           sensorsStore := mapSet s.sensorsStore r.sensorId e
           clients := s.clients
           wire := s.wire ++ broadcastWrites h.writeThrows r s.clients }, .status200 r) := by
  unfold accepted at hr
  unfold postSensorsData at hr ⊢
  cases body with
  | none => simp at hr
  | some p =>
      simp only [parseFloat, broadcastToClients_eq] at hr ⊢
      cases h1 : p.sensorId.toStr h.numberToString <;>
      cases h2 : p.temperature.toStr h.numberToString <;>
      cases h3 : p.humidity.toStr h.numberToString <;>
      simp_all
      subst hr
      refine ⟨_, ?_, ?_, ?_, ?_, ?_, ?_, rfl⟩ <;> rfl

theorem stream_fields (s : Server) (res now : Nat) (throws : Nat → Bool) :
    (getSensorsStream s res now throws).2.sensorDataStore = s.sensorDataStore ∧
    (getSensorsStream s res now throws).2.sensorsStore = s.sensorsStore ∧
    (getSensorsStream s res now throws).2.clients = s.clients ++ [{ id := now, res := res }] ∧
    (getSensorsStream s res now throws).2.wire
      = s.wire ++ [{ res := res, event := .initial (mapValues s.sensorsStore),
                     delivered := !throws res }] := by
  unfold getSensorsStream resWrite
  by_cases ht : throws res = true <;> simp [ht]

theorem close_fields (s : Server) (clientId : Nat) :
    (onClose s clientId).sensorDataStore = s.sensorDataStore ∧
    (onClose s clientId).sensorsStore = s.sensorsStore ∧
    (onClose s clientId).wire = s.wire := by
  unfold onClose
  split <;> simp

theorem pushBounded_lastN {α : Type} (cap : Nat) (l : List α) (x : α) :
    pushBounded cap (lastN cap l) x = lastN cap (l ++ [x]) := by
  unfold pushBounded lastN
  simp only [List.length_append, List.length_drop, List.length_singleton]
  by_cases hc : l.length < cap
  · have h1 : l.length - cap = 0 := by omega
    have h2 : l.length + 1 - cap = 0 := by omega
    simp [h1, h2]
    omega
  · have h3 : l.length - (l.length - cap) + 1 > cap := by omega
    rw [if_pos h3]
    by_cases h0 : cap = 0
    · subst h0
      simp
    · have h4 : l.length + 1 - cap = (l.length - cap) + 1 := by omega
      have h5 : l.length - cap < l.length := by omega
      rw [h4, List.drop_append_of_le_length (by omega)]
      rw [← List.drop_drop 1 (l.length - cap) l]
      have hne : List.drop (l.length - cap) l ≠ [] := by
        intro hnil
        have := congrArg List.length hnil
        simp at this
        omega
      cases hd : List.drop (l.length - cap) l with
      | nil => exact absurd hd hne
      | cons a t => simp

theorem foldl_pushBounded {α : Type} (cap : Nat) (l xs : List α) :
    xs.foldl (pushBounded cap) (lastN cap l) = lastN cap (l ++ xs) := by
  induction xs generalizing l with
  | nil => simp
  | cons x xs ih =>
      rw [List.foldl_cons, pushBounded_lastN, ih]
      simp

theorem run_store (s : Server) (steps : List Step) :
    (run s steps).sensorDataStore
      = (ingested steps).foldl (pushBounded MAX_STORED_DATA) s.sensorDataStore := by
  induction steps generalizing s with
  | nil => rfl
  | cons st rest ih =>
      unfold run at ih ⊢
      rw [List.foldl_cons, ih]
      cases st with
      | post body h =>
          cases ha : accepted body h with
          | none => simp [step, ingested, ha, post_rejected s body h ha]
          | some r =>
              obtain ⟨e, -, -, -, -, -, -, hp⟩ := post_accepted s body h r ha
              simp [step, ingested, ha, hp]
      | stream res now throws => simp [step, ingested, (stream_fields s res now throws).1]
      | close res clientId => simp [step, ingested, (close_fields s clientId).1]

theorem sameValueZero_eq (a b : JSVal) (hab : sameValueZero a b = true) : a = b := by
  cases a <;> cases b <;> simp_all [sameValueZero]

theorem strictEqStr_eq (v : JSVal) (sid : String) (hv : strictEqStr v sid = true) :
    v = .str sid := by
  cases v <;> simp_all [strictEqStr]

theorem mapSet_keyed (m : SensorMap) (k : JSVal) (e : SensorState)
    (hm : KeyedBySensorId m) (he : e.sensorId = k) : KeyedBySensorId (mapSet m k e) := by
  induction m with
  | nil =>
      intro kv hkv
      simp [mapSet] at hkv
      subst hkv
      exact he
  | cons kv0 rest ih =>
      obtain ⟨k0, v0⟩ := kv0
      have hrest : KeyedBySensorId rest := fun kv hkv => hm kv (List.mem_cons_of_mem _ hkv)
      unfold mapSet
      by_cases hk : sameValueZero k0 k = true
      · rw [if_pos hk]
        intro kv hkv
        rcases List.mem_cons.1 hkv with h0 | h0
        · subst h0
          simpa [sameValueZero_eq k0 k hk] using he
        · exact hrest kv h0
      · rw [if_neg hk]
        intro kv hkv
        rcases List.mem_cons.1 hkv with h0 | h0
        · subst h0
          exact hm _ (List.mem_cons_self _ _)
        · exact ih hrest kv h0

theorem entriesFor_mapSet_other (sid : String) (m : SensorMap) (k : JSVal) (e : SensorState)
    (hk : strictEqStr k sid = false) : entriesFor sid (mapSet m k e) = entriesFor sid m := by
  induction m with
  | nil => simp [mapSet, entriesFor, hk]
  | cons kv0 rest ih =>
      obtain ⟨k0, v0⟩ := kv0
      unfold mapSet
      by_cases h0 : sameValueZero k0 k = true
      · have hk0 : strictEqStr k0 sid = false := by
          rw [sameValueZero_eq k0 k h0]; exact hk
        simp [h0, entriesFor, hk0]
      · rw [if_neg h0]
        unfold entriesFor at ih ⊢
        by_cases hs : strictEqStr k0 sid = true
        · simp [List.filter_cons, hs, ih]
        · simp [List.filter_cons, hs, ih]

theorem entriesFor_mapSet_same (sid : String) (m : SensorMap) (e : SensorState)
    (hm : (entriesFor sid m).length ≤ 1) : entriesFor sid (mapSet m (.str sid) e) = [e] := by
  induction m with
  | nil => simp [mapSet, entriesFor, strictEqStr]
  | cons kv0 rest ih =>
      obtain ⟨k0, v0⟩ := kv0
      unfold mapSet
      by_cases h0 : sameValueZero k0 (.str sid) = true
      · have hk0 : k0 = .str sid := sameValueZero_eq _ _ h0
        subst hk0
        have hrest : entriesFor sid rest = [] := by
          simp [entriesFor, List.filter_cons, strictEqStr] at hm
          simpa [entriesFor] using hm
        simp [h0, entriesFor, List.filter_cons, strictEqStr] at hrest ⊢
        exact hrest
      · rw [if_neg h0]
        have hs : strictEqStr k0 sid = false := by
          cases hb : strictEqStr k0 sid with
          | false => rfl
          | true =>
              have := strictEqStr_eq k0 sid hb
              subst this
              simp [sameValueZero] at h0
        have hlen : (entriesFor sid rest).length ≤ 1 := by
          simpa [entriesFor, List.filter_cons, hs] using hm
        have := ih hlen
        simp [entriesFor, List.filter_cons, hs] at this ⊢
        exact this

theorem lastForFrom_eq (start : Option Reading) (sid : String) (rs : List Reading) :
    lastForFrom start sid rs
      = match lastFor sid rs with
        | some r => some r
        | none => start := by
  induction rs generalizing start with
  | nil => simp [lastForFrom, lastFor]
  | cons r rs ih =>
      have hstep : lastForFrom start sid (r :: rs)
          = lastForFrom (if strictEqStr r.sensorId sid then some r else start) sid rs := by
        simp [lastForFrom]
      rw [hstep, ih]
      unfold lastFor
      by_cases hr : strictEqStr r.sensorId sid = true
      · simp only [List.filter_cons, hr, if_true, List.getLast?_cons]
        cases (List.filter (fun r => strictEqStr r.sensorId sid) rs).getLast? <;> simp
      · simp only [List.filter_cons, hr]
        simp

theorem listing_filter_eq (sid : String) (m : SensorMap) (hm : KeyedBySensorId m) :
    (mapValues m).filter (fun e => strictEqStr e.sensorId sid) = entriesFor sid m := by
  induction m with
  | nil => rfl
  | cons kv0 rest ih =>
      have hrest : KeyedBySensorId rest := fun kv hkv => hm kv (List.mem_cons_of_mem _ hkv)
      have h0 : kv0.2.sensorId = kv0.1 := hm kv0 (List.mem_cons_self _ _)
      have := ih hrest
      unfold mapValues entriesFor at this ⊢
      by_cases hs : strictEqStr kv0.1 sid = true
      · simp [List.filter_cons, h0, hs, this]
      · simp [List.filter_cons, h0, hs, this]

theorem run_registry (sid : String) (steps : List Step) (s : Server) (start : Option Reading)
    (hk : KeyedBySensorId s.sensorsStore)
    (hs : (entriesFor sid s.sensorsStore).map SensorState.reading = start.toList) :
    KeyedBySensorId (run s steps).sensorsStore ∧
    (entriesFor sid (run s steps).sensorsStore).map SensorState.reading
      = (lastForFrom start sid (ingested steps)).toList := by
  induction steps generalizing s start with
  | nil => exact ⟨hk, by simpa [run, ingested, lastForFrom] using hs⟩
  | cons st rest ih =>
      have hrun : run s (st :: rest) = run (step s st) rest := by simp [run]
      rw [hrun]
      cases st with
      | post body h =>
          cases ha : accepted body h with
          | none =>
              have hp := post_rejected s body h ha
              have hst : step s (.post body h) = s := by simp [step, hp]
              rw [hst]
              simpa [ingested, ha] using ih s start hk hs
          | some r =>
              obtain ⟨e, her, -, -, -, -, -, hp⟩ := post_accepted s body h r ha
              have hes : e.sensorId = r.sensorId := by rw [← her]; rfl
              have hreg : (step s (.post body h)).sensorsStore
                  = mapSet s.sensorsStore r.sensorId e := by simp [step, hp]
              have hk1 : KeyedBySensorId (step s (.post body h)).sensorsStore := by
                rw [hreg]; exact mapSet_keyed _ _ _ hk hes
              have hing : ingested (.post body h :: rest) = r :: ingested rest := by
                simp [ingested, ha]
              have hfold : lastForFrom start sid (r :: ingested rest)
                  = lastForFrom (if strictEqStr r.sensorId sid then some r else start) sid
                      (ingested rest) := by simp [lastForFrom]
              rw [hing, hfold]
              apply ih _ _ hk1
              rw [hreg]
              by_cases hm : strictEqStr r.sensorId sid = true
              · have hlen : (entriesFor sid s.sensorsStore).length ≤ 1 := by
                  have := congrArg List.length hs
                  rw [List.length_map] at this
                  rw [this]
                  cases start <;> simp
                rw [strictEqStr_eq _ _ hm, entriesFor_mapSet_same sid _ e hlen]
                simp [her, hm, strictEqStr_eq _ _ hm, strictEqStr]
              · have hm2 : strictEqStr r.sensorId sid = false := by simpa using hm
                rw [entriesFor_mapSet_other sid _ _ e hm2]
                simpa [hm2] using hs
      | stream res now throws =>
          have hreg : (step s (.stream res now throws)).sensorsStore = s.sensorsStore := by
            simp [step, (stream_fields s res now throws).2.1]
          have := ih (step s (.stream res now throws)) start (by rw [hreg]; exact hk)
            (by rw [hreg]; exact hs)
          simpa [ingested] using this
      | close res clientId =>
          have hreg : (step s (.close res clientId)).sensorsStore = s.sensorsStore := by
            simp [step, (close_fields s clientId).2.1]
          have := ih (step s (.close res clientId)) start (by rw [hreg]; exact hk)
            (by rw [hreg]; exact hs)
          simpa [ingested] using this

theorem deliveredTo_append (res : Nat) (ws vs : List WriteRec) :
    deliveredTo res (ws ++ vs) = deliveredTo res ws ++ deliveredTo res vs := by
  simp [deliveredTo]

theorem deliveredTo_broadcast_absent (throws : Nat → Bool) (data : Reading) (res : Nat)
    (cs : List Client) (hres : res ∉ cs.map Client.res) :
    deliveredTo res (broadcastWrites throws data cs) = [] := by
  induction cs with
  | nil => rfl
  | cons c cs ih =>
      simp only [List.map_cons, List.mem_cons, not_or] at hres
      have hne : (c.res == res) = false := by
        simpa using fun h => hres.1 h.symm
      have := ih hres.2
      simp only [deliveredTo, broadcastWrites, List.map_cons, List.filter_cons] at this ⊢
      simp [hne, this]

theorem deliveredTo_broadcast_member (throws : Nat → Bool) (data : Reading) (c : Client)
    (cs : List Client) (hd : (cs.map Client.res).Nodup) (hc : c ∈ cs)
    (hw : throws c.res = false) :
    deliveredTo c.res (broadcastWrites throws data cs) = [.update data] := by
  induction cs with
  | nil => simp at hc
  | cons c0 cs ih =>
      simp only [List.map_cons, List.nodup_cons] at hd
      rcases List.mem_cons.1 hc with h0 | h0
      · subst h0
        have := deliveredTo_broadcast_absent throws data c.res cs hd.1
        simp only [deliveredTo, broadcastWrites, List.map_cons, List.filter_cons] at this ⊢
        simp [hw, this]
      · have hne : (c0.res == c.res) = false := by
          have : c0.res ≠ c.res := by
            intro heq
            exact hd.1 (heq ▸ List.mem_map_of_mem Client.res h0)
          simpa using this
        have := ih hd.2 h0
        simp only [deliveredTo, broadcastWrites, List.map_cons, List.filter_cons] at this ⊢
        simp [hne, this]

theorem deliveredTo_broadcast_updates (throws : Nat → Bool) (data : Reading) (res : Nat)
    (cs : List Client) :
    ∃ n : Nat, deliveredTo res (broadcastWrites throws data cs)
      = (List.replicate n data).map Event.update := by
  induction cs with
  | nil => exact ⟨0, rfl⟩
  | cons c cs ih =>
      obtain ⟨n, hn⟩ := ih
      simp only [deliveredTo, broadcastWrites, List.map_cons, List.filter_cons] at hn ⊢
      by_cases hk : (c.res == res && !throws c.res) = true
      · refine ⟨n + 1, ?_⟩
        simp only [hk, if_true, List.map_cons, hn, List.replicate_succ]
      · refine ⟨n, ?_⟩
        simp only [hk]
        exact hn

/-! ## The history store and the registry -/

/-- C1: after any sequence of events starting from the empty server, the
history store holds exactly the last `min(N, MAX_STORED_DATA)` of the `N`
readings ingested, in arrival order, so its length never exceeds
`MAX_STORED_DATA`; and with a bound of 3, appending A, B, C, D to the empty
store leaves B, C, D. -/
theorem history_holds_last_readings (steps : List Step) :
    (run Server.init steps).sensorDataStore
      = (ingested steps).drop ((ingested steps).length - MAX_STORED_DATA) ∧
    (run Server.init steps).sensorDataStore.length
      = min (ingested steps).length MAX_STORED_DATA ∧
    (run Server.init steps).sensorDataStore.length ≤ MAX_STORED_DATA ∧
    (∀ A B C D : Reading, [A, B, C, D].foldl (pushBounded 3) [] = [B, C, D]) := by
  have hstore : (run Server.init steps).sensorDataStore
      = (ingested steps).drop ((ingested steps).length - MAX_STORED_DATA) := by
    rw [run_store]
    have := foldl_pushBounded MAX_STORED_DATA ([] : List Reading) (ingested steps)
    simpa [lastN, Server.init] using this
  refine ⟨hstore, ?_, ?_, ?_⟩
  · rw [hstore, List.length_drop]; omega
  · rw [hstore, List.length_drop]; omega
  · intro A B C D
    simp [pushBounded]

/-- C2: after any sequence of events starting from the empty server, for every
string `sid` the registry listing has exactly one entry whose `sensorId` is
`sid` when some ingested reading carries it, that entry is stored under the
key `sid`, and its reading fields are those of the most recent such reading;
the listing has no such entry when no ingested reading carries `sid`. -/
theorem registry_holds_latest_reading (steps : List Step) (sid : String) :
    ((mapValues (run Server.init steps).sensorsStore).filter
        (fun e => strictEqStr e.sensorId sid)).map SensorState.reading
      = (lastFor sid (ingested steps)).toList ∧
    ((run Server.init steps).sensorsStore.filter (fun kv => sameValueZero kv.1 (.str sid))).length
      = (lastFor sid (ingested steps)).toList.length := by
  have hinv := run_registry sid steps Server.init none
    (by intro kv hkv; simp [Server.init] at hkv) (by simp [Server.init, entriesFor])
  have hlast : lastForFrom none sid (ingested steps) = lastFor sid (ingested steps) := by
    rw [lastForFrom_eq]; cases lastFor sid (ingested steps) <;> rfl
  rw [hlast] at hinv
  refine ⟨?_, ?_⟩
  · rw [listing_filter_eq sid _ hinv.1]; exact hinv.2
  · have hlen := congrArg List.length hinv.2
    rw [List.length_map] at hlen
    rw [← hlen]
    unfold entriesFor
    rw [List.length_map]
    congr 1
    apply List.filter_congr
    intro kv _
    cases hkv : kv.1 <;> simp [sameValueZero, strictEqStr]

/-! ## Broadcast -/

/-- C3: `broadcastToClients(R)` returns normally whatever writes throw, and,
the attached response objects being distinct, every attached observer whose
own write does not throw receives exactly one more event, the `update`
carrying `R`. -/
theorem broadcast_isolates_failing_writes (throws : Nat → Bool) (s : Server) (R : Reading) :
    (broadcastToClients throws s R).1 = .ok () ∧
    ((s.clients.map Client.res).Nodup → ∀ c ∈ s.clients, throws c.res = false →
      received (broadcastToClients throws s R).2 c.res = received s c.res ++ [.update R]) := by
  rw [broadcastToClients_eq]
  refine ⟨rfl, ?_⟩
  intro hd c hc hw
  simp only [received, deliveredTo_append]
  rw [deliveredTo_broadcast_member throws R c s.clients hd hc hw]

/-- Witness for C3: three observers, the write to the second throws, the third
still receives the update. -/
theorem broadcast_isolates_failing_writes_witness :
    (broadcastToClients (fun res => res == 1) sampleServer sampleReading).1 = .ok () ∧
    received (broadcastToClients (fun res => res == 1) sampleServer sampleReading).2 2
      = received sampleServer 2 ++ [.update sampleReading] :=
  ⟨(broadcast_isolates_failing_writes (fun res => res == 1) sampleServer sampleReading).1,
   (broadcast_isolates_failing_writes (fun res => res == 1) sampleServer sampleReading).2
      (by decide) { id := 12, res := 2 } (by simp [sampleServer]) rfl⟩

/-- C4, evaluated where it fails: two observers attach in the same
millisecond and the second one closes.  The handler removes the first entry
with that id, the first observer.  That observer is still attached and none of
its writes fails, yet it receives neither of the two readings ingested
afterwards; the closed one receives both. -/
theorem attached_observer_misses_updates :
    (run Server.init closeThenIngest).clients = [{ id := 5, res := 1 }] ∧
    (ingested closeThenIngest).length = 2 ∧
    updatesOf (received (run Server.init closeThenIngest) 0) = [] ∧
    updatesOf (received (run Server.init closeThenIngest) 1) = ingested closeThenIngest := by
  refine ⟨by decide, by decide, rfl, rfl⟩

/-- C6, evaluated where it fails: two observers attach in the same millisecond;
after one reading the second observer closes, and a second reading is
published.  The closed observer receives the second reading as well, and the
first, still attached, does not.  With distinct clock values 5 and 6 the same
scenario, closing either observer, gives the closed one 1 update and the other
one 2. -/
theorem closed_observer_still_written :
    (run Server.init (ingestCloseIngest 5 5 1 5)).clients = [{ id := 5, res := 1 }] ∧
    (updatesOf (received (run Server.init (ingestCloseIngest 5 5 1 5)) 1)).length = 2 ∧
    (updatesOf (received (run Server.init (ingestCloseIngest 5 5 1 5)) 0)).length = 1 ∧
    (updatesOf (received (run Server.init (ingestCloseIngest 5 6 1 6)) 1)).length = 1 ∧
    (updatesOf (received (run Server.init (ingestCloseIngest 5 6 1 6)) 0)).length = 2 ∧
    (updatesOf (received (run Server.init (ingestCloseIngest 5 6 0 5)) 0)).length = 1 ∧
    (updatesOf (received (run Server.init (ingestCloseIngest 5 6 0 5)) 1)).length = 2 := by
  refine ⟨by decide, by decide, by decide, by decide, by decide, by decide, by decide⟩

/-! ## Attach -/

theorem run_received_updates (res : Nat) (steps : List Step) (s : Server)
    (hsteps : ∀ n t, Step.stream res n t ∉ steps) :
    ∃ ups : List Reading, received (run s steps) res = received s res ++ ups.map Event.update := by
  induction steps generalizing s with
  | nil => exact ⟨[], by simp [run]⟩
  | cons st rest ih =>
      have hrest : ∀ n t, Step.stream res n t ∉ rest :=
        fun n t hmem => hsteps n t (List.mem_cons_of_mem _ hmem)
      have hrun : run s (st :: rest) = run (step s st) rest := by simp [run]
      obtain ⟨ups, hups⟩ := ih (step s st) hrest
      have hone : ∃ ups0 : List Reading,
          received (step s st) res = received s res ++ ups0.map Event.update := by
        cases st with
        | post body h =>
            cases ha : accepted body h with
            | none => exact ⟨[], by simp [step, post_rejected s body h ha]⟩
            | some r =>
                obtain ⟨e, -, -, -, -, -, -, hp⟩ := post_accepted s body h r ha
                obtain ⟨n, hn⟩ := deliveredTo_broadcast_updates h.writeThrows r res s.clients
                exact ⟨List.replicate n r, by simp [step, hp, received, deliveredTo_append, hn]⟩
        | stream res1 now throws =>
            have hne : res1 ≠ res := by
              intro heq
              subst heq
              exact hsteps now throws (List.mem_cons_self _ _)
            refine ⟨[], ?_⟩
            simp [step, received, (stream_fields s res1 now throws).2.2.2, deliveredTo_append]
            simp [deliveredTo, hne]
        | close res1 clientId =>
            exact ⟨[], by simp [step, received, (close_fields s clientId).2.2]⟩
      obtain ⟨ups0, hups0⟩ := hone
      exact ⟨ups0 ++ ups, by rw [hrun, hups, hups0]; simp⟩

/-- C5: `GET /api/sensors/stream` makes one write, to the new response, of
an `initial` event whose payload is the registry listing at the attach.  When
the response object is new and that write returns, then after any later events
among which that response is not attached again, the events delivered to it
are that one `initial` event followed by `update` events only. -/
theorem attach_sends_initial_first (s : Server) (res now : Nat) (throws : Nat → Bool)
    (steps : List Step)
    (hnew : ∀ w ∈ s.wire, w.res ≠ res)
    (hw : throws res = false)
    (hsteps : ∀ n t, Step.stream res n t ∉ steps) :
    (getSensorsStream s res now throws).2.wire
      = s.wire ++ [{ res := res, event := .initial (mapValues s.sensorsStore),
                     delivered := true }] ∧
    ∃ ups : List Reading,
      received (run (getSensorsStream s res now throws).2 steps) res
        = .initial (mapValues s.sensorsStore) :: ups.map Event.update := by
  obtain ⟨ups, hups⟩ := run_received_updates res steps (getSensorsStream s res now throws).2 hsteps
  refine ⟨by simp [(stream_fields s res now throws).2.2.2, hw], ups, ?_⟩
  rw [hups]
  have hold : deliveredTo res s.wire = [] := by
    unfold deliveredTo
    rw [List.map_eq_nil_iff, List.filter_eq_nil_iff]
    intro w hwm
    have := hnew w hwm
    simp [this]
  simp [received, (stream_fields s res now throws).2.2.2, deliveredTo_append, hold]
  simp [deliveredTo, hw]

/-- Witness for C5: an observer attaches to a server that has ingested one
reading, and a second reading is ingested afterwards. -/
theorem attach_sends_initial_first_witness :
    (getSensorsStream
        (run Server.init [.post (some (samplePayload "S1" "21.5" "55")) (quietHost 6)])
        0 7 (fun _ => false)).2.wire
      = (run Server.init [.post (some (samplePayload "S1" "21.5" "55")) (quietHost 6)]).wire
        ++ [{ res := 0,
              event := .initial (mapValues
                (run Server.init
                  [.post (some (samplePayload "S1" "21.5" "55")) (quietHost 6)]).sensorsStore),
              delivered := true }] ∧
    ∃ ups : List Reading,
      received (run (getSensorsStream
          (run Server.init [.post (some (samplePayload "S1" "21.5" "55")) (quietHost 6)])
          0 7 (fun _ => false)).2
        [.post (some (samplePayload "S1" "22" "54")) (quietHost 8)]) 0
        = .initial (mapValues
            (run Server.init
              [.post (some (samplePayload "S1" "21.5" "55")) (quietHost 6)]).sensorsStore)
          :: ups.map Event.update :=
  attach_sends_initial_first _ 0 7 (fun _ => false) _ (by decide) rfl (by simp)

/-! ## Validation -/

theorem accepted_none_iff (body : Option Payload) (h : Host) :
    accepted body h = none ↔
      body = none ∨ ∃ p, body = some p ∧
        (convertible h.numberToString p.sensorId && convertible h.numberToString p.temperature
          && convertible h.numberToString p.humidity) = false := by
  unfold accepted postSensorsData
  cases body with
  | none => simp
  | some p =>
      simp only [parseFloat, broadcastToClients_eq, convertible]
      cases h1 : p.sensorId.toStr h.numberToString <;>
      cases h2 : p.temperature.toStr h.numberToString <;>
      cases h3 : p.humidity.toStr h.numberToString <;>
      simp_all

theorem accepted_fields (p : Payload) (h : Host) (r : Reading)
    (hr : accepted (some p) h = some r) :
    r.sensorId = p.sensorId ∧
    parseFloat h.numberToString p.temperature = .ok r.temperature ∧
    parseFloat h.numberToString p.humidity = .ok r.humidity := by
  unfold accepted postSensorsData at hr
  simp only [parseFloat, broadcastToClients_eq] at hr ⊢
  cases h1 : p.sensorId.toStr h.numberToString <;>
  cases h2 : p.temperature.toStr h.numberToString <;>
  cases h3 : p.humidity.toStr h.numberToString <;>
  simp_all
  subst hr
  exact ⟨rfl, rfl, rfl⟩

/-- C7 fails: the body `{}` is answered 200; its reading, with `sensorId`
`undefined` and `NaN` for temperature and humidity, is appended to the history,
stored in the registry and written to the three attached observers. -/
theorem empty_payload_is_ingested :
    (postSensorsData sampleServer (some emptyPayload) (quietHost 6)).2.body.map
        Reading.temperature = some .nan ∧
    (postSensorsData sampleServer (some emptyPayload) (quietHost 6)).2.body.map
        Reading.humidity = some .nan ∧
    (postSensorsData sampleServer (some emptyPayload) (quietHost 6)).1.sensorDataStore.length
      = sampleServer.sensorDataStore.length + 1 ∧
    (postSensorsData sampleServer (some emptyPayload) (quietHost 6)).1.sensorsStore.length
      = sampleServer.sensorsStore.length + 1 ∧
    (received (postSensorsData sampleServer (some emptyPayload) (quietHost 6)).1 0).length
      = (received sampleServer 0).length + 1 := by
  refine ⟨by decide, by decide, by decide, by decide, by decide⟩

/-- C7 as amended: the endpoint validates nothing.  It answers 500 exactly
when the request has no body object or the string conversion of `sensorId`,
`temperature` or `humidity` throws, and then the whole state is unchanged.
Every other body is answered 200 with its reading, which is appended to the
history, stored in the registry and written to every attached observer; an
absent `sensorId` is kept as `undefined`, and a temperature or humidity that is
absent, or not numeric, is kept as what `parseFloat` gives, `NaN`. -/
theorem ingestion_fails_only_on_throw (s : Server) (body : Option Payload) (h : Host) :
    ((postSensorsData s body h).2.body = none ↔
      body = none ∨ ∃ p, body = some p ∧
        (convertible h.numberToString p.sensorId && convertible h.numberToString p.temperature
          && convertible h.numberToString p.humidity) = false) ∧
    ((postSensorsData s body h).2.body = none → (postSensorsData s body h).1 = s) ∧
    (∀ r, (postSensorsData s body h).2.body = some r →
      (postSensorsData s body h).1.sensorDataStore
        = pushBounded MAX_STORED_DATA s.sensorDataStore r ∧
      (∃ e : SensorState, e.reading = r ∧
        (postSensorsData s body h).1.sensorsStore = mapSet s.sensorsStore r.sensorId e) ∧
      (postSensorsData s body h).1.wire
        = s.wire ++ broadcastWrites h.writeThrows r s.clients ∧
      ∀ p, body = some p →
        r.sensorId = p.sensorId ∧
        parseFloat h.numberToString p.temperature = .ok r.temperature ∧
        parseFloat h.numberToString p.humidity = .ok r.humidity) ∧
    parseFloat h.numberToString .undefined = .ok .nan := by
  have hbody : (postSensorsData s body h).2.body = accepted body h := by
    cases ha : accepted body h with
    | none => rw [post_rejected s body h ha]; rfl
    | some r =>
        obtain ⟨e, -, -, -, -, -, -, hp⟩ := post_accepted s body h r ha
        rw [hp]; rfl
  rw [hbody]
  refine ⟨accepted_none_iff body h, ?_, ?_, rfl⟩
  · intro ha
    rw [post_rejected s body h ha]
  · intro r ha
    obtain ⟨e, her, -, -, -, -, -, hp⟩ := post_accepted s body h r ha
    rw [hp]
    refine ⟨rfl, ⟨e, her, rfl⟩, rfl, ?_⟩
    intro p hb
    subst hb
    exact accepted_fields p h r ha

/-! ## Failed writes -/

/-- C8 fails: of three attached observers the write to the second throws.  After
the publish the observer list is what it was, and a second publish calls
`write` on that observer again. -/
theorem failed_observer_stays_attached :
    (broadcastToClients (fun res => res == 1) sampleServer sampleReading).2.clients
      = [{ id := 10, res := 0 }, { id := 11, res := 1 }, { id := 12, res := 2 }] ∧
    attempts (broadcastToClients (fun res => res == 1) sampleServer sampleReading).2 1 = 1 ∧
    attempts (broadcastToClients (fun res => res == 1)
      (broadcastToClients (fun res => res == 1) sampleServer sampleReading).2 sampleReading).2 1
      = 2 := by
  refine ⟨by decide, by decide, by decide⟩

/-- C8 as amended: a publish never changes the observer list, whether or not
a write throws, and it calls `write` once for every entry of the list, so an
observer whose write threw is written to again by every later publish for as
long as its entry stays in the list. -/
theorem broadcast_keeps_observer_list (throws : Nat → Bool) (s : Server) (R : Reading) :
    (broadcastToClients throws s R).2.clients = s.clients ∧
    ∀ res, attempts (broadcastToClients throws s R).2 res
      = attempts s res + s.clients.countP (fun c => c.res == res) := by
  rw [broadcastToClients_eq]
  refine ⟨rfl, ?_⟩
  intro res
  simp only [attempts, broadcastWrites, List.countP_append, List.countP_map]
  rfl

/-! ## Queries -/

/-- C9, evaluated where it fails: sensor `S1` has three stored readings.  With
`limit=0` the query returns all three, not none; with `limit=-1` it returns the
last two.  With `limit=2` it returns the last two, and with no limit all
three. -/
theorem history_limit_zero_returns_all :
    (getSensorData (run Server.init fourIngestions) "S1" (some "0")).2.body.map
        (List.map Reading.timestamp) = some [6, 7, 8] ∧
    (getSensorData (run Server.init fourIngestions) "S1" (some "-1")).2.body.map
        (List.map Reading.timestamp) = some [7, 8] ∧
    (getSensorData (run Server.init fourIngestions) "S1" (some "2")).2.body.map
        (List.map Reading.timestamp) = some [7, 8] ∧
    (getSensorData (run Server.init fourIngestions) "S1" none).2.body.map
        (List.map Reading.timestamp) = some [6, 7, 8] := by
  refine ⟨by decide, by decide, by decide, by decide⟩

/-- C10 fails: eleven sensors are ingested and then the first of them, `S0`,
once more.  Asked with `limit=1`, the endpoint returns ten entries, and `S0`,
the sensor touched last, is not among them. -/
theorem latest_ignores_limit_and_recency :
    (getSensorsLatest (run Server.init elevenSensors) (some "1")).2.body.map
        (List.map SensorState.name)
      = some ["Capteur S1", "Capteur S2", "Capteur S3", "Capteur S4", "Capteur S5",
          "Capteur S6", "Capteur S7", "Capteur S8", "Capteur S9", "Capteur S10"] ∧
    (mapValues (run Server.init elevenSensors).sensorsStore).map
        (fun e => (e.name, e.timestamp))
      = [("Capteur S0", 200), ("Capteur S1", 101), ("Capteur S2", 102), ("Capteur S3", 103),
          ("Capteur S4", 104), ("Capteur S5", 105), ("Capteur S6", 106), ("Capteur S7", 107),
          ("Capteur S8", 108), ("Capteur S9", 109), ("Capteur S10", 110)] := by
  refine ⟨by decide, by decide⟩

/-- C10 as amended: the endpoint takes no limit.  Whatever `limit` the query
carries, it answers 200 with the last `min(10, n)` entries of the registry
listing of `n` sensors: at most 10 entries, each one an entry of the listing,
and the whole listing when `n ≤ 10`. -/
theorem latest_returns_last_ten (s : Server) (limit : Option String) :
    ∃ l : List SensorState,
      (getSensorsLatest s limit).2 = .status200 l ∧
      l = (mapValues s.sensorsStore).drop ((mapValues s.sensorsStore).length - 10) ∧
      l.length = min 10 (mapValues s.sensorsStore).length ∧
      (∀ e ∈ l, e ∈ mapValues s.sensorsStore) ∧
      ((mapValues s.sensorsStore).length ≤ 10 → l = mapValues s.sensorsStore) := by
  refine ⟨_, rfl, ?_, ?_, ?_, ?_⟩
  · simp [jsSlice]
  · simp only [jsSlice, List.length_drop]
    simp
    omega
  · intro e he
    simp only [jsSlice] at he
    simp at he
    exact List.mem_of_mem_drop he
  · intro hn
    have h0 : (mapValues s.sensorsStore).length - 10 = 0 := by omega
    simp [jsSlice, h0]

/-! ## Rounding -/

theorem le_roundHalfEven (m : ℤ) (x : ℚ) (h : (m : ℚ) ≤ x) : m ≤ roundHalfEven x := by
  have hf : m ≤ ⌊x⌋ := Int.le_floor.2 h
  unfold roundHalfEven
  simp only
  split_ifs <;> omega

theorem roundHalfEven_le (m : ℤ) (x : ℚ) (h : x ≤ (m : ℚ)) : roundHalfEven x ≤ m := by
  unfold roundHalfEven
  simp only
  have hfx : (⌊x⌋ : ℚ) ≤ x := Int.floor_le x
  have hf : ⌊x⌋ ≤ m := by exact_mod_cast hfx.trans h
  by_cases hlt : x - ⌊x⌋ < 1 / 2
  · rw [if_pos hlt]; exact hf
  · have hne : (⌊x⌋ : ℚ) ≠ m := by
      intro heq
      have : x - ⌊x⌋ ≤ 0 := by rw [heq]; linarith
      linarith
    have hlt2 : ⌊x⌋ < m := lt_of_le_of_ne hf (by exact_mod_cast hne)
    rw [if_neg hlt]
    split_ifs <;> omega

theorem binary64_between (q lo hi : ℚ) (K : ℤ) (L H : ℕ)
    (hK : -1022 ≤ K) (hK2 : K ≤ 1023) (hH : H < 2 ^ 53)
    (hlo : lo = L * 2 ^ (K - 52)) (hhi : hi = H * 2 ^ (K - 52))
    (h1 : lo ≤ q) (h2 : q ≤ hi) :
    ∃ z, binary64 q = .fin z ∧ lo ≤ z ∧ z ≤ hi := by
  have hlo0 : 0 ≤ lo := by rw [hlo]; positivity
  by_cases hq0 : q = 0
  · subst hq0
    exact ⟨0, by simp [binary64], h1, h2⟩
  have hqpos : 0 < q := lt_of_le_of_ne (hlo0.trans h1) (Ne.symm hq0)
  have habs : |q| = q := abs_of_pos hqpos
  have hhi_lt : hi < 2 ^ (K + 1) := by
    rw [hhi]
    have h53 : (H : ℚ) < 2 ^ (53 : ℤ) := by exact_mod_cast hH
    have hpos : (0 : ℚ) < 2 ^ (K - 52) := by positivity
    calc (H : ℚ) * 2 ^ (K - 52) < 2 ^ (53 : ℤ) * 2 ^ (K - 52) := by
          exact mul_lt_mul_of_pos_right h53 hpos
      _ = 2 ^ (K + 1) := by
          rw [← zpow_add₀ (by norm_num : (2 : ℚ) ≠ 0)]
          congr 1; ring
  have hq_lt : q < 2 ^ (K + 1) := lt_of_le_of_lt h2 hhi_lt
  have hlog : Int.log 2 q ≤ K := by
    have := (Int.lt_zpow_iff_log_lt (b := 2) (by norm_num) (x := K + 1) hqpos).1
      (by exact_mod_cast hq_lt)
    omega
  have hno : ¬ ((2 : ℚ) ^ (1024 : ℤ) - 2 ^ (970 : ℤ) ≤ |q|) := by
    rw [habs, not_le]
    have hle : hi ≤ 2 ^ (1024 : ℤ) - 2 ^ (971 : ℤ) := by
      rw [hhi]
      have hH' : (H : ℚ) ≤ 2 ^ (53 : ℤ) - 1 := by
        have h1 : H + 1 ≤ 2 ^ 53 := hH
        have h2 : ((H + 1 : ℕ) : ℚ) ≤ ((2 ^ 53 : ℕ) : ℚ) := by exact_mod_cast h1
        have h3 : (2 : ℚ) ^ (53 : ℤ) = ((2 ^ 53 : ℕ) : ℚ) := by norm_num
        rw [h3]
        push_cast at h2 ⊢
        linarith
      have hp : (2 : ℚ) ^ (K - 52) ≤ 2 ^ (971 : ℤ) :=
        zpow_le_zpow_right₀ (by norm_num) (by omega)
      have hsplit : (2 : ℚ) ^ (1024 : ℤ) = 2 ^ (53 : ℤ) * 2 ^ (971 : ℤ) := by
        rw [← zpow_add₀ (by norm_num : (2 : ℚ) ≠ 0)]
        norm_num
      calc (H : ℚ) * 2 ^ (K - 52) ≤ (2 ^ (53 : ℤ) - 1) * 2 ^ (971 : ℤ) := by
            apply mul_le_mul hH' hp (by positivity) (by norm_num)
        _ = 2 ^ (1024 : ℤ) - 2 ^ (971 : ℤ) := by rw [hsplit]; ring
    have hlt : (2 : ℚ) ^ (970 : ℤ) < 2 ^ (971 : ℤ) :=
      zpow_lt_zpow_right₀ (by norm_num) (by norm_num)
    linarith
  set e : ℤ := max (Int.log 2 q) (-1022) with he
  have heK : e ≤ K := max_le hlog hK
  set u : ℚ := 2 ^ (e - 52) with hu
  have hupos : 0 < u := by positivity
  have hgrid : (2 : ℚ) ^ (K - 52) = ((2 ^ (K - e).toNat : ℕ) : ℚ) * u := by
    rw [hu]
    push_cast
    rw [← zpow_natCast, ← zpow_add₀ (by norm_num : (2 : ℚ) ≠ 0)]
    congr 1
    have : ((K - e).toNat : ℤ) = K - e := Int.toNat_of_nonneg (by omega)
    omega
  have hb : binary64 q = .fin ((roundHalfEven (q / u) : ℚ) * u) := by
    unfold binary64
    rw [if_neg hq0, if_neg hno]
    simp only [habs]
    rw [if_neg (not_lt.2 hqpos.le)]
  refine ⟨_, hb, ?_, ?_⟩
  · have hm : ((L * 2 ^ (K - e).toNat : ℕ) : ℤ) ≤ roundHalfEven (q / u) := by
      apply le_roundHalfEven
      rw [le_div_iff₀ hupos]
      calc (((L * 2 ^ (K - e).toNat : ℕ) : ℤ) : ℚ) * u = L * 2 ^ (K - 52) := by
            rw [hgrid]; push_cast; ring
        _ = lo := hlo.symm
        _ ≤ q := h1
    calc lo = (((L * 2 ^ (K - e).toNat : ℕ) : ℤ) : ℚ) * u := by
          rw [hlo, hgrid]; push_cast; ring
      _ ≤ (roundHalfEven (q / u) : ℚ) * u := by
          apply mul_le_mul_of_nonneg_right _ hupos.le
          exact_mod_cast hm
  · have hm : roundHalfEven (q / u) ≤ ((H * 2 ^ (K - e).toNat : ℕ) : ℤ) := by
      apply roundHalfEven_le
      rw [div_le_iff₀ hupos]
      calc q ≤ hi := h2
        _ = H * 2 ^ (K - 52) := hhi
        _ = (((H * 2 ^ (K - e).toNat : ℕ) : ℤ) : ℚ) * u := by
            rw [hgrid]; push_cast; ring
    calc (roundHalfEven (q / u) : ℚ) * u ≤ (((H * 2 ^ (K - e).toNat : ℕ) : ℤ) : ℚ) * u := by
          apply mul_le_mul_of_nonneg_right _ hupos.le
          exact_mod_cast hm
      _ = hi := by rw [hhi, hgrid]; push_cast; ring

theorem binary64_of_binade (q : ℚ) (e : ℤ) (he1 : -1022 ≤ e) (he2 : e ≤ 1022)
    (hlo : (2 : ℚ) ^ e ≤ q) (hhi : q < 2 ^ (e + 1)) :
    binary64 q = .fin (roundHalfEven (q / 2 ^ (e - 52)) * 2 ^ (e - 52)) := by
  have hqpos : 0 < q := lt_of_lt_of_le (by positivity) hlo
  have habs : |q| = q := abs_of_pos hqpos
  have hlog : Int.log 2 q = e := by
    have h1 : e ≤ Int.log 2 q :=
      (Int.zpow_le_iff_le_log (b := 2) (by norm_num) hqpos).1 (by exact_mod_cast hlo)
    have h2 : Int.log 2 q < e + 1 :=
      (Int.lt_zpow_iff_log_lt (b := 2) (by norm_num) hqpos).1 (by exact_mod_cast hhi)
    omega
  have hno : ¬ ((2 : ℚ) ^ (1024 : ℤ) - 2 ^ (970 : ℤ) ≤ |q|) := by
    rw [habs, not_le]
    have h1 : (2 : ℚ) ^ (e + 1) ≤ 2 ^ (1023 : ℤ) :=
      zpow_le_zpow_right₀ (by norm_num) (by omega)
    have h2 : (2 : ℚ) ^ (1024 : ℤ) = 2 * 2 ^ (1023 : ℤ) := by
      rw [show (1024 : ℤ) = 1 + 1023 by norm_num, zpow_add₀ (by norm_num : (2 : ℚ) ≠ 0)]
      norm_num
    have h3 : (2 : ℚ) ^ (970 : ℤ) < 2 ^ (1023 : ℤ) :=
      zpow_lt_zpow_right₀ (by norm_num) (by norm_num)
    linarith
  unfold binary64
  rw [if_neg hqpos.ne', if_neg hno]
  simp only [habs, hlog]
  rw [if_neg (not_lt.2 hqpos.le), max_eq_left he1]

theorem roundHalfEven_of_lt (x : ℚ) (n : ℤ) (h1 : (n : ℚ) ≤ x) (h2 : x - n < 1 / 2) :
    roundHalfEven x = n := by
  have hf : ⌊x⌋ = n := by
    rw [Int.floor_eq_iff]
    exact ⟨h1, by linarith⟩
  unfold roundHalfEven
  simp only [hf]
  rw [if_pos h2]

theorem roundHalfEven_tie_odd (x : ℚ) (n : ℤ) (h : x = n + 1 / 2) (hodd : n % 2 = 1) :
    roundHalfEven x = n + 1 := by
  have hf : ⌊x⌋ = n := by
    rw [Int.floor_eq_iff]
    exact ⟨by linarith, by linarith⟩
  unfold roundHalfEven
  simp only [hf]
  have hd : x - n = 1 / 2 := by linarith
  rw [hd, if_neg (lt_irrefl _), if_neg (lt_irrefl _), if_neg (by omega)]

/-- At the largest result of the random source, `1 - 2 ^ (-53)`, line 35 gives
exactly 80: the product rounds to `40 - 2 ^ (-47)` and the sum, a tie, rounds
to the even neighbour. -/
theorem air_humidity_attains_eighty :
    (JSNum.fin 40).add ((JSNum.fin (1 - 2 ^ (-53 : ℤ))).mul (.fin 40)) = .fin 80 := by
  have hmul : (JSNum.fin (1 - 2 ^ (-53 : ℤ))).mul (.fin 40) = .fin (40 - 2 ^ (-47 : ℤ)) := by
    show binary64 ((1 - 2 ^ (-53 : ℤ)) * 40) = _
    rw [binary64_of_binade _ 5 (by norm_num) (by norm_num) (by norm_num) (by norm_num)]
    rw [roundHalfEven_of_lt _ (40 * 2 ^ 47 - 1) (by norm_num) (by norm_num)]
    norm_num
  rw [hmul]
  show binary64 (40 + (40 - 2 ^ (-47 : ℤ))) = _
  rw [binary64_of_binade _ 6 (by norm_num) (by norm_num) (by norm_num) (by norm_num)]
  rw [roundHalfEven_tie_odd _ (80 * 2 ^ 46 - 1) (by norm_num) (by norm_num)]
  norm_num

theorem binary64_representable (q : ℚ) (K : ℤ) (M : ℕ)
    (hK : -1022 ≤ K) (hK2 : K ≤ 1023) (hM : M < 2 ^ 53) (hq : q = M * 2 ^ (K - 52)) :
    binary64 q = .fin q := by
  obtain ⟨z, hz, h1, h2⟩ := binary64_between q q q K M M hK hK2 hM hq hq le_rfl le_rfl
  rw [hz, le_antisymm h2 h1]

theorem scaled_random_between (r span : ℚ) (K : ℤ) (H : ℕ)
    (hK : -1022 ≤ K) (hK2 : K ≤ 1023) (hH : H < 2 ^ 53) (hspan : span = H * 2 ^ (K - 52))
    (hr : 0 ≤ r ∧ r < 1) :
    ∃ y, (JSNum.fin r).mul (.fin span) = .fin y ∧ 0 ≤ y ∧ y ≤ span := by
  have hspan0 : 0 ≤ span := by rw [hspan]; positivity
  have hzero : (0 : ℚ) = ((0 : ℕ) : ℚ) * 2 ^ (K - 52) := by simp
  have hle : r * span ≤ span := by nlinarith [hr.1, hr.2]
  exact binary64_between (r * span) 0 span K 0 H hK hK2 hH hzero hspan
    (mul_nonneg hr.1 hspan0) hle

theorem offset_random_within (r base span hi : ℚ) (K1 K2 : ℤ) (H1 L2 H2 : ℕ)
    (hK1 : -1022 ≤ K1) (hK1b : K1 ≤ 1023) (hH1 : H1 < 2 ^ 53)
    (hspan : span = H1 * 2 ^ (K1 - 52))
    (hK2 : -1022 ≤ K2) (hK2b : K2 ≤ 1023) (hH2 : H2 < 2 ^ 53)
    (hbase : base = L2 * 2 ^ (K2 - 52)) (hhi : hi = H2 * 2 ^ (K2 - 52))
    (hsum : base + span = hi) (hr : 0 ≤ r ∧ r < 1) :
    ((JSNum.fin base).add ((JSNum.fin r).mul (.fin span))).within base hi = true := by
  obtain ⟨y, hy, hy0, hy1⟩ := scaled_random_between r span K1 H1 hK1 hK1b hH1 hspan hr
  obtain ⟨z, hz, hz0, hz1⟩ := binary64_between (base + y) base hi K2 L2 H2 hK2 hK2b hH2
    hbase hhi (by linarith) (by linarith)
  rw [hy]
  show (binary64 (base + y)).within base hi = true
  rw [hz]
  simp [JSNum.within, hz0, hz1]

/-! ## The canonical reading and the registry entry -/

theorem accepted_synthetic (body : Option Payload) (h : Host) (r : Reading)
    (hr : accepted body h = some r) :
    r._id = toString h.clockId ∧ r.timestamp = h.clockTimestamp ∧
    r.soilMoisture = (JSNum.fin 30).add ((JSNum.fin h.randomSoil).mul (.fin 50)) ∧
    r.airHumidity = (JSNum.fin 40).add ((JSNum.fin h.randomAir).mul (.fin 40)) ∧
    r.battery = (JSNum.fin 60).add ((JSNum.fin h.randomBattery).mul (.fin 40)) := by
  unfold accepted postSensorsData at hr
  cases body with
  | none => simp at hr
  | some p =>
      simp only [parseFloat, broadcastToClients_eq] at hr
      cases h1 : p.sensorId.toStr h.numberToString <;>
      cases h2 : p.temperature.toStr h.numberToString <;>
      cases h3 : p.humidity.toStr h.numberToString <;>
      simp_all
      subst hr
      exact ⟨rfl, rfl, rfl, rfl, rfl⟩

theorem mem_mapValues_mapSet (m : SensorMap) (k : JSVal) (e : SensorState) :
    e ∈ mapValues (mapSet m k e) := by
  induction m with
  | nil => simp [mapSet, mapValues]
  | cons kv rest ih =>
      unfold mapSet
      by_cases hk : sameValueZero kv.1 k = true
      · simp [hk, mapValues]
      · rw [if_neg hk]
        simp only [mapValues, List.map_cons, List.mem_cons] at ih ⊢
        exact Or.inr ih

/-- C11 fails: the clock advances from 6 to 7 between the read that stamps the
reading and the read that stamps the registry entry.  The entry written has
`active = true`, `lastUpdate = 7` and `timestamp = 6`. -/
theorem last_update_differs_from_timestamp :
    (mapValues (postSensorsData Server.init (some (samplePayload "S1" "21.5" "55"))
        tickingHost).1.sensorsStore).map (fun e => (e.active, e.lastUpdate, e.timestamp))
      = [(true, 7, 6)] ∧
    (postSensorsData Server.init (some (samplePayload "S1" "21.5" "55"))
        tickingHost).2.body.map Reading.timestamp = some 6 := by
  refine ⟨by decide, by decide⟩

/-- C11 as amended: for every ingested reading the registry entry written for
its `sensorId` carries the reading, has `active = true`, and has as
`lastUpdate` the clock value read when the entry is written (line 53), a read
of its own, later than the one that gives the reading's `timestamp` (line 37).
The two are equal when the clock gives the same value at both reads, and when
the clock does not run backwards `lastUpdate` is not earlier than the
`timestamp`. -/
theorem registry_entry_active_and_stamped (s : Server) (body : Option Payload) (h : Host)
    (r : Reading) (hr : accepted body h = some r) :
    ∃ e : SensorState,
      (postSensorsData s body h).1.sensorsStore = mapSet s.sensorsStore r.sensorId e ∧
      e ∈ mapValues (postSensorsData s body h).1.sensorsStore ∧
      e.reading = r ∧ e.active = true ∧ e.lastUpdate = h.clockLastUpdate ∧
      r.timestamp = h.clockTimestamp ∧
      (h.clockLastUpdate = h.clockTimestamp → e.lastUpdate = r.timestamp) ∧
      (h.clockTimestamp ≤ h.clockLastUpdate → r.timestamp ≤ e.lastUpdate) := by
  obtain ⟨e, her, -, hact, hlu, -, -, hp⟩ := post_accepted s body h r hr
  have hts := (accepted_synthetic body h r hr).2.1
  refine ⟨e, by rw [hp], ?_, her, hact, hlu, hts, ?_, ?_⟩
  · rw [hp]; exact mem_mapValues_mapSet _ _ _
  · intro heq; rw [hlu, hts, heq]
  · intro hle; rw [hlu, hts]; exact hle

/-- Witness for C11: the sample payload of sensor `S1`, ingested at clock
value 6 by a server with three observers. -/
theorem registry_entry_active_and_stamped_witness :
    ∃ e : SensorState,
      (postSensorsData sampleServer (some (samplePayload "S1" "21.5" "55"))
          (quietHost 6)).1.sensorsStore
        = mapSet sampleServer.sensorsStore sampleAccepted.sensorId e ∧
      e ∈ mapValues (postSensorsData sampleServer (some (samplePayload "S1" "21.5" "55"))
          (quietHost 6)).1.sensorsStore ∧
      e.reading = sampleAccepted ∧ e.active = true ∧ e.lastUpdate = (quietHost 6).clockLastUpdate ∧
      sampleAccepted.timestamp = (quietHost 6).clockTimestamp ∧
      ((quietHost 6).clockLastUpdate = (quietHost 6).clockTimestamp →
        e.lastUpdate = sampleAccepted.timestamp) ∧
      ((quietHost 6).clockTimestamp ≤ (quietHost 6).clockLastUpdate →
        sampleAccepted.timestamp ≤ e.lastUpdate) :=
  registry_entry_active_and_stamped sampleServer (some (samplePayload "S1" "21.5" "55"))
    (quietHost 6) sampleAccepted rfl

/-- C13, evaluated where it fails: readings of two different sensors are
ingested within the same millisecond, clock value 6.  Both are accepted, they
differ, and both receive the `_id` `"6"`. -/
theorem same_millisecond_same_id :
    (ingested sameMillisecond).map Reading._id = ["6", "6"] ∧
    (ingested sameMillisecond).map (fun r => strictEqStr r.sensorId "S1") = [true, false] ∧
    (run Server.init sameMillisecond).sensorDataStore.map Reading._id = ["6", "6"] := by
  refine ⟨by decide, by decide, by decide⟩

/-- C16: whatever the payload, when the three results of the random source lie
in `[0, 1)` the accepted reading has `soilMoisture` in `[30, 80]`,
`airHumidity` in `[40, 80]` and `battery` in `[60, 100]`. -/
theorem synthetic_fields_in_range (body : Option Payload) (h : Host) (r : Reading)
    (hr : accepted body h = some r)
    (hsoil : 0 ≤ h.randomSoil ∧ h.randomSoil < 1)
    (hair : 0 ≤ h.randomAir ∧ h.randomAir < 1)
    (hbattery : 0 ≤ h.randomBattery ∧ h.randomBattery < 1) :
    r.soilMoisture.within 30 80 = true ∧ r.airHumidity.within 40 80 = true ∧
    r.battery.within 60 100 = true := by
  obtain ⟨-, -, h1, h2, h3⟩ := accepted_synthetic body h r hr
  rw [h1, h2, h3]
  refine ⟨?_, ?_, ?_⟩
  · exact offset_random_within h.randomSoil 30 50 80 5 6 (50 * 2 ^ 47) (30 * 2 ^ 46)
      (80 * 2 ^ 46) (by norm_num) (by norm_num) (by norm_num) (by norm_num) (by norm_num)
      (by norm_num) (by norm_num) (by norm_num) (by norm_num) (by norm_num) hsoil
  · exact offset_random_within h.randomAir 40 40 80 5 6 (40 * 2 ^ 47) (40 * 2 ^ 46)
      (80 * 2 ^ 46) (by norm_num) (by norm_num) (by norm_num) (by norm_num) (by norm_num)
      (by norm_num) (by norm_num) (by norm_num) (by norm_num) (by norm_num) hair
  · exact offset_random_within h.randomBattery 60 40 100 5 6 (40 * 2 ^ 47) (60 * 2 ^ 46)
      (100 * 2 ^ 46) (by norm_num) (by norm_num) (by norm_num) (by norm_num) (by norm_num)
      (by norm_num) (by norm_num) (by norm_num) (by norm_num) (by norm_num) hbattery

/-- Witness for C16: ingesting `sensorId "S1"`, `temperature "21.5"`,
`humidity "55"` gives the numbers 21.5 and 55, and synthetic fields within
their ranges. -/
theorem synthetic_fields_in_range_witness :
    accepted (some (samplePayload "S1" "21.5" "55")) (quietHost 6) = some sampleAccepted ∧
    sampleAccepted.temperature = .fin (43 / 2) ∧ sampleAccepted.humidity = .fin 55 ∧
    (sampleAccepted.soilMoisture.within 30 80 = true ∧
      sampleAccepted.airHumidity.within 40 80 = true ∧
      sampleAccepted.battery.within 60 100 = true) :=
  ⟨rfl,
   by
    simp [sampleAccepted, parseFloatStr, takeSign, takeDigits, digitValue, digitsValue,
      isStrWhiteSpace, exponentPart]
    norm_num
    exact binary64_representable (43 / 2) 4 (43 * 2 ^ 47) (by norm_num) (by norm_num)
      (by norm_num) (by norm_num),
   by
    simp [sampleAccepted, parseFloatStr, takeSign, takeDigits, digitValue, digitsValue,
      isStrWhiteSpace, exponentPart]
    exact binary64_representable 55 5 (55 * 2 ^ 47) (by norm_num) (by norm_num)
      (by norm_num) (by norm_num),
   synthetic_fields_in_range (some (samplePayload "S1" "21.5" "55")) (quietHost 6)
    sampleAccepted rfl (by norm_num [quietHost]) (by norm_num [quietHost])
    (by norm_num [quietHost])⟩

/-- The closed upper bound of C16 is met: when the random source gives
`1 - 2 ^ (-53)` at line 35, the accepted reading has `airHumidity` 80. -/
theorem air_humidity_upper_bound_is_met :
    (accepted (some (samplePayload "S1" "21.5" "55")) edgeHost).isSome = true ∧
    ∀ r, accepted (some (samplePayload "S1" "21.5" "55")) edgeHost = some r →
      r.airHumidity = .fin 80 := by
  refine ⟨by decide, ?_⟩
  intro r hr
  rw [(accepted_synthetic _ _ r hr).2.2.2.1]
  exact air_humidity_attains_eighty

/-- C18: two payloads that agree on `sensorId`, `temperature` and `humidity`
are handled alike, whatever their other properties: the same state results
(history, registry, observer list, events written) and the same reply.  When
the payload is accepted, the registry entry written has `id = sensorId`,
`active = true` and the location 34.6807, -1.9102. -/
theorem ingestion_reads_three_fields (s : Server) (p q : Payload) (h : Host)
    (hid : p.sensorId = q.sensorId) (htemp : p.temperature = q.temperature)
    (hhum : p.humidity = q.humidity) :
    postSensorsData s (some p) h = postSensorsData s (some q) h ∧
    ∀ r, accepted (some p) h = some r →
      ∃ e : SensorState,
        (postSensorsData s (some p) h).1.sensorsStore = mapSet s.sensorsStore p.sensorId e ∧
        e.id = p.sensorId ∧ e.active = true ∧
        e.lat = 346807 / 10000 ∧ e.lng = -(19102 / 10000) := by
  refine ⟨?_, ?_⟩
  · simp only [postSensorsData, hid, htemp, hhum]
  · intro r hr
    obtain ⟨e, -, heid, hact, -, hlat, hlng, hp⟩ := post_accepted s (some p) h r hr
    have hsid := (accepted_fields p h r hr).1
    exact ⟨e, by rw [hp, hsid], by rw [heid, hsid], hact, hlat, hlng⟩

/-- Witness for C18: the sample payload of sensor `S1` and the same payload
carrying `active`, `lat`, `lng`, `name`, `_id` and `timestamp` as well. -/
theorem ingestion_reads_three_fields_witness :
    postSensorsData sampleServer (some (samplePayload "S1" "21.5" "55")) (quietHost 6)
      = postSensorsData sampleServer (some crowdedPayload) (quietHost 6) ∧
    ∀ r, accepted (some (samplePayload "S1" "21.5" "55")) (quietHost 6) = some r →
      ∃ e : SensorState,
        (postSensorsData sampleServer (some (samplePayload "S1" "21.5" "55"))
            (quietHost 6)).1.sensorsStore
          = mapSet sampleServer.sensorsStore (samplePayload "S1" "21.5" "55").sensorId e ∧
        e.id = (samplePayload "S1" "21.5" "55").sensorId ∧ e.active = true ∧
        e.lat = 346807 / 10000 ∧ e.lng = -(19102 / 10000) :=
  ingestion_reads_three_fields sampleServer (samplePayload "S1" "21.5" "55") crowdedPayload
    (quietHost 6) rfl rfl rfl

/-! ## The limit of a history query -/

set_option maxRecDepth 100000 in
/-- C12, evaluated where it fails: sensor `S1` has 101 stored readings.  With
no limit, or an empty one, the query returns 100 of them.  With `limit=abc`
and with `limit=0` it returns all 101, and with `limit=-2` it returns 99.
Every one of these queries is answered 200. -/
theorem invalid_limit_is_not_the_default :
    (getSensorData (run Server.init manyIngestions) "S1" none).2.body.map List.length
      = some 100 ∧
    (getSensorData (run Server.init manyIngestions) "S1" (some "")).2.body.map List.length
      = some 100 ∧
    (getSensorData (run Server.init manyIngestions) "S1" (some "abc")).2.body.map List.length
      = some 101 ∧
    (getSensorData (run Server.init manyIngestions) "S1" (some "0")).2.body.map List.length
      = some 101 ∧
    (getSensorData (run Server.init manyIngestions) "S1" (some "-2")).2.body.map List.length
      = some 99 := by
  refine ⟨by decide, by decide, by decide, by decide, by decide⟩

/-- C15: when no stored reading has the requested `sensorId`, the history
query answers 200 with the empty list, whatever the limit, and leaves the
state as it was. -/
theorem unknown_sensor_history_is_empty (s : Server) (sensorId : String)
    (limit : Option String)
    (hnone : ∀ r ∈ s.sensorDataStore, strictEqStr r.sensorId sensorId = false) :
    getSensorData s sensorId limit = (s, .status200 []) := by
  have hfilter : s.sensorDataStore.filter (fun d => strictEqStr d.sensorId sensorId) = [] := by
    rw [List.filter_eq_nil_iff]
    intro r hr
    simp [hnone r hr]
  unfold getSensorData
  rw [hfilter]
  unfold jsSlice
  split <;> simp

/-- Witness for C15: the history holds readings of `S1` and `S2`, and the
query asks for `S9` with `limit=5`. -/
theorem unknown_sensor_history_is_empty_witness :
    getSensorData (run Server.init fourIngestions) "S9" (some "5")
      = (run Server.init fourIngestions, .status200 []) :=
  unknown_sensor_history_is_empty (run Server.init fourIngestions) "S9" (some "5") (by decide)

/-! ## Detach -/

/-- C14, evaluated where it fails: two observers attach in the same
millisecond and both entries carry the id 5.  The detach step for 5 leaves the
second observer in the list, and run a second time it removes that observer
too, so twice is not once.  With the clock values 5 and 6 the second run
changes nothing, and the detach step for the unknown id 99 changes nothing
either. -/
theorem detach_twice_removes_two :
    (run Server.init (twoAttaches 5 5)).clients
      = [{ id := 5, res := 0 }, { id := 5, res := 1 }] ∧
    (onClose (run Server.init (twoAttaches 5 5)) 5).clients = [{ id := 5, res := 1 }] ∧
    (onClose (onClose (run Server.init (twoAttaches 5 5)) 5) 5).clients = [] ∧
    (onClose (run Server.init (twoAttaches 5 6)) 5).clients = [{ id := 6, res := 1 }] ∧
    (onClose (onClose (run Server.init (twoAttaches 5 6)) 5) 5).clients
      = [{ id := 6, res := 1 }] ∧
    (onClose (run Server.init (twoAttaches 5 5)) 99).clients
      = [{ id := 5, res := 0 }, { id := 5, res := 1 }] := by
  refine ⟨by decide, by decide, by decide, by decide, by decide, by decide⟩

/-! ## Read endpoints -/

/-- C17: each of the five read endpoints returns the state it was given: the
history store, the registry, the observer list and the trace of writes are what
they were, whatever the `sensorId` and the `limit` of the query. -/
theorem read_endpoints_keep_state (s : Server) (sensorId : String) (limit : Option String) :
    (getSensorsLatest s limit).1 = s ∧
    (getSensorData s sensorId limit).1 = s ∧
    (getSensors s).1 = s ∧
    (getSensorsStatsGlobal s).1 = s ∧
    (getHealth s).1 = s :=
  ⟨rfl, rfl, rfl, rfl, rfl⟩

end GreenSpaces
